import Mathlib

/-!
Verification development for RustDHTShare.

Shallow embedding of the core of the repository:
  - `src/protocol.rs`: the `Message` enum and its serde JSON wire encoding
    (externally tagged, one JSON object or string per variant).
  - `src/dht.rs`: the `DHT` store (a `HashMap<String, String>` behind a
    mutex), modelled by its observable behaviour as a map from keys to
    optional values; the mutex serialises every operation, so the
    single-threaded functional semantics of `insert`/`lookup` is exact.
  - `src/network.rs`: `handle_connection` (server side dispatch),
    `start_server` (listener loop), `join_network` (client join call).
  - `src/main.rs`: `store_key_value`, `lookup_key` (client calls).
  - `src/file_manager.rs`: `split_file`.
-/

namespace RustDHTShare

/-- Bytes of a Rust `Vec<u8>` element. -/
abbrev Byte := Fin 256

/-- The `Message` enum of `src/protocol.rs`: the eight protocol variants.
`FileData.data` is a `Vec<u8>` byte payload. -/
inductive Message where
  | Join (node_id : String)
  | Ping
  | Pong
  | Store (key : String) (value : String)
  | Lookup (key : String)
  | FileRequest (file_id : String)
  | FileData (file_id : String) (data : List Byte)
  | Ack
deriving DecidableEq, Repr

/-- JSON values, the target of `serde_json` serialization.  Numbers are
restricted to `Nat` because the only numbers on this wire are `u8` bytes. -/
inductive Json where
  | str (s : String)
  | num (n : Nat)
  | arr (items : List Json)
  | obj (fields : List (String × Json))

/-- Model of `serde_json::to_string` on a `Message`, at the JSON-value level:
the serde derive uses external tagging, so unit variants (`Ping`, `Pong`,
`Ack`) become JSON strings and data variants become single-field objects
whose key is the variant name; a `Vec<u8>` becomes a JSON array of numbers. -/
def encodeMessage : Message → Json
  | .Join node_id => .obj [("Join", .obj [("node_id", .str node_id)])]
  | .Ping => .str "Ping"
  | .Pong => .str "Pong"
  | .Store key value => .obj [("Store", .obj [("key", .str key), ("value", .str value)])]
  | .Lookup key => .obj [("Lookup", .obj [("key", .str key)])]
  | .FileRequest file_id => .obj [("FileRequest", .obj [("file_id", .str file_id)])]
  | .FileData file_id data =>
      .obj [("FileData", .obj [("file_id", .str file_id),
                               ("data", .arr (data.map fun b => .num b.val))])]
  | .Ack => .str "Ack"

/-- Deserialize a JSON array of numbers into a `Vec<u8>`: every element
must be a number below 256, as serde requires for `u8`. -/
def decodeBytes : List Json → Option (List Byte)
  | [] => some []
  | .num n :: rest =>
      if h : n < 256 then (decodeBytes rest).map (fun bs => ⟨n, h⟩ :: bs) else none
  | _ => none

/-- Model of `serde_json::from_str::<Message>` at the JSON-value level: the serde
derive for the externally tagged `Message` enum, on canonically ordered
fields.  Unknown tags, missing or extra fields, and ill-typed field
contents are rejected (`none`), as serde's strict decoding does. -/
def decodeMessage : Json → Option Message
  | .str "Ping" => some .Ping
  | .str "Pong" => some .Pong
  | .str "Ack" => some .Ack
  | .obj [("Join", .obj [("node_id", .str node_id)])] => some (.Join node_id)
  | .obj [("Store", .obj [("key", .str key), ("value", .str value)])] =>
      some (.Store key value)
  | .obj [("Lookup", .obj [("key", .str key)])] => some (.Lookup key)
  | .obj [("FileRequest", .obj [("file_id", .str file_id)])] =>
      some (.FileRequest file_id)
  | .obj [("FileData", .obj [("file_id", .str file_id), ("data", .arr items)])] =>
      (decodeBytes items).map (Message.FileData file_id)
  | _ => none

/-- The observable contents of the `DHT` store of `src/dht.rs`: what
`HashMap::get` returns for each key.  The tokio mutex serialises every
`insert`/`lookup`, so each operation acts on one such map atomically. -/
def StoreMap := String → Option String

namespace DHT

/-- Model of `DHT::new`: an empty map. -/
def new : StoreMap := fun _ => none

/-- Model of `DHT::insert`: `map.insert(key, value)` — insert or overwrite `key`. -/
def insert (st : StoreMap) (key value : String) : StoreMap :=
  fun k => if k = key then some value else st k

/-- Model of `DHT::lookup`: `map.get(key).cloned()`. -/
def lookup (st : StoreMap) (key : String) : Option String :=
  st key

end DHT

/-- A store obtained from the empty store of `DHT::new` by a sequence of
`DHT::insert` operations, in order. -/
def applyInserts (ops : List (String × String)) : StoreMap :=
  ops.foldl (fun st kv => DHT.insert st kv.1 kv.2) DHT.new

/-- One `write_all` performed by a handler: either a serialized reply
payload or the single `b"\n"` delimiter. -/
inductive WireWrite where
  | payload (j : Json)
  | delimiter

/-- The error a handler propagates with `?` when `serde_json::from_str`
fails on the line it read. -/
inductive HandlerError where
  | decodeError
deriving DecidableEq, Repr

/-- Outcome of `handle_connection`: the value it returns to the spawning
task, the store contents after it ran, and the bytes it wrote. -/
structure HandlerResult where
  result : Except HandlerError Unit
  store : StoreMap
  writes : List WireWrite

/-- The dispatch of `handle_connection` (`src/network.rs` lines 52-88) on
the result of decoding the line that was read: a decode failure is
propagated by `?` (nothing is written, the store is untouched); a decoded
message is matched: `Store` inserts and replies `Ack`, `Lookup` replies
with a `Store`-shaped echo of a found value or `Ack` on a miss, and every
other variant is answered with `Ack`.  Each reply is a serialized payload
followed by the newline delimiter. -/
def dispatchDecoded : Option Message → StoreMap → HandlerResult
  | none, st => ⟨.error .decodeError, st, []⟩
  | some msg, st =>
    match msg with
    | .Store key value =>
        ⟨.ok (), DHT.insert st key value,
         [.payload (encodeMessage .Ack), .delimiter]⟩
    | .Lookup key =>
        match DHT.lookup st key with
        | some found_value =>
            ⟨.ok (), st,
             [.payload (encodeMessage (.Store key found_value)), .delimiter]⟩
        | none =>
            ⟨.ok (), st, [.payload (encodeMessage .Ack), .delimiter]⟩
    | _ => ⟨.ok (), st, [.payload (encodeMessage .Ack), .delimiter]⟩

/-- Model of `handle_connection`: the line read from the socket arrives as the
result of JSON parsing (`none` when the text is not valid JSON), is
decoded into a `Message`, and dispatched against the store. -/
def handle_connection (line : Option Json) (st : StoreMap) : HandlerResult :=
  dispatchDecoded (line.bind decodeMessage) st

/-- One iteration's input to the listener loop of `start_server`:
`accept` either yields a connection (identified by a socket id) or
fails. -/
inductive AcceptEvent where
  | conn (socket : Nat)
  | err
deriving DecidableEq, Repr

/-- The listener loop of `start_server` (`src/network.rs` lines 28-40)
over a finite trace of `accept` outcomes: an `Ok` connection is spawned
into a handler task (collected here by socket id), an `Err` is logged and
the loop continues with the next iteration. -/
def start_server : List AcceptEvent → List Nat
  | [] => []
  | .conn socket :: rest => socket :: start_server rest
  | .err :: rest => start_server rest

/-- The stages of one outbound client call, in program order. -/
inductive Stage where
  | connect
  | writeMsg
  | writeNl
  | readResp
  | decodeResp
deriving DecidableEq, Repr, Fintype

/-- Program-order index of a stage. -/
def stageIdx : Stage → Nat
  | .connect => 0
  | .writeMsg => 1
  | .writeNl => 2
  | .readResp => 3
  | .decodeResp => 4

/-- Stage `t` is later in the same call than stage `s`. -/
def stageLater (s t : Stage) : Prop := stageIdx s < stageIdx t

instance : DecidablePred fun p : Stage × Stage => stageLater p.1 p.2 :=
  fun p => inferInstanceAs (Decidable (stageIdx p.1 < stageIdx p.2))

instance (s t : Stage) : Decidable (stageLater s t) :=
  inferInstanceAs (Decidable (stageIdx s < stageIdx t))

/-- Environment of one outbound call: whether each I/O stage succeeds,
and the parse of the reply line when the read succeeds (`none` when the
reply text is not valid JSON). -/
structure ClientEnv where
  connectOk : Bool
  writeMsgOk : Bool
  writeNlOk : Bool
  readOk : Bool
  response : Option Json

/-- Trace of one outbound call: the stages it attempted, in order, and
the stages whose failure it reported. -/
structure ClientRun where
  attempted : List Stage
  errors : List Stage

/-- Model of `join_network` (`src/network.rs` lines 93-119): a connect failure is
 reported and ends the call; after a successful connect, each of the
write-message, write-newline, read and decode stages runs and reports its
own failure, with no early return between stages — a failed read leaves
the response string empty, so the decode stage then fails on it. -/
def join_network (env : ClientEnv) : ClientRun :=
  if !env.connectOk then ⟨[.connect], [.connect]⟩
  else
    let e1 : List Stage := if env.writeMsgOk then [] else [.writeMsg]
    let e2 : List Stage := if env.writeNlOk then [] else [.writeNl]
    let e3 : List Stage := if env.readOk then [] else [.readResp]
    let parsed := (if env.readOk then env.response else none).bind decodeMessage
    let e4 : List Stage := if parsed.isSome then [] else [.decodeResp]
    ⟨[.connect, .writeMsg, .writeNl, .readResp, .decodeResp], e1 ++ e2 ++ e3 ++ e4⟩

/-- Model of `store_key_value` (`src/main.rs` lines 107-133): every stage failure
is reported and followed by `return`, so no later stage runs. -/
def store_key_value (env : ClientEnv) : ClientRun :=
  if !env.connectOk then ⟨[.connect], [.connect]⟩
  else if !env.writeMsgOk then ⟨[.connect, .writeMsg], [.writeMsg]⟩
  else if !env.writeNlOk then ⟨[.connect, .writeMsg, .writeNl], [.writeNl]⟩
  else if !env.readOk then
    ⟨[.connect, .writeMsg, .writeNl, .readResp], [.readResp]⟩
  else if (env.response.bind decodeMessage).isSome then
    ⟨[.connect, .writeMsg, .writeNl, .readResp, .decodeResp], []⟩
  else
    ⟨[.connect, .writeMsg, .writeNl, .readResp, .decodeResp], [.decodeResp]⟩

/-- Model of `lookup_key` (`src/main.rs` lines 137-163): same early-return error
structure as `store_key_value`, sending a `Lookup` instead of a `Store`. -/
def lookup_key (env : ClientEnv) : ClientRun :=
  if !env.connectOk then ⟨[.connect], [.connect]⟩
  else if !env.writeMsgOk then ⟨[.connect, .writeMsg], [.writeMsg]⟩
  else if !env.writeNlOk then ⟨[.connect, .writeMsg, .writeNl], [.writeNl]⟩
  else if !env.readOk then
    ⟨[.connect, .writeMsg, .writeNl, .readResp], [.readResp]⟩
  else if (env.response.bind decodeMessage).isSome then
    ⟨[.connect, .writeMsg, .writeNl, .readResp, .decodeResp], []⟩
  else
    ⟨[.connect, .writeMsg, .writeNl, .readResp, .decodeResp], [.decodeResp]⟩

/-- A client call reports every failure as terminal: once a stage is in
the reported errors of a run, no later stage of that same call was
attempted. -/
def terminatesOnFailure (run : ClientEnv → ClientRun) : Prop :=
  ∀ env s t, s ∈ (run env).errors → stageLater s t → t ∉ (run env).attempted

/-- A client call never retries: no stage is attempted twice. -/
def noRetry (run : ClientEnv → ClientRun) : Prop :=
  ∀ env, (run env).attempted.Nodup

/-- Rust's `slice::chunks(n)` for `n > 0`: successive slices of length
`n`, the last one possibly shorter.  (The `n = 0` guard only serves
termination; `split_file` never reaches it.) -/
def chunksOf (n : Nat) (xs : List Byte) : List (List Byte) :=
  if h : n = 0 ∨ xs = [] then []
  else xs.take n :: chunksOf n (xs.drop n)
termination_by xs.length
decreasing_by
  push_neg at h
  simp only [List.length_drop]
  have hx : 0 < xs.length := List.length_pos.mpr h.2
  omega

/-- Model of `split_file` (`src/file_manager.rs` lines 30-39) after the file's
bytes have been read into `buffer`: `buffer.chunks(chunk_size)` collected
into vectors.  Rust's `slice::chunks` panics when `chunk_size == 0`;
the panic is modelled by `none`. -/
def split_file (buffer : List Byte) (chunk_size : Nat) : Option (List (List Byte)) :=
  if chunk_size = 0 then none else some (chunksOf chunk_size buffer)

/-! ### Helper lemmas -/

/-- A serialized `Vec<u8>` deserializes to the original bytes. -/
theorem decodeBytes_encode (data : List Byte) :
    decodeBytes (data.map fun b => Json.num b.val) = some data := by
  induction data with
  | nil => rfl
  | cons b bs ih =>
      simp only [List.map_cons, decodeBytes, b.isLt, dif_pos, ih]
      rfl

/-- Encode/decode round-trip for every `Message` value. -/
theorem decode_encode (m : Message) :
    decodeMessage (encodeMessage m) = some m := by
  cases m with
  | FileData file_id data =>
      simp only [encodeMessage, decodeMessage, decodeBytes_encode]
      rfl
  | _ => rfl

/-- Equation of `dispatchDecoded` at a decoded `Lookup`, exposing the
match on the store lookup. -/
theorem dispatchDecoded_lookup_eq (st : StoreMap) (key : String) :
    dispatchDecoded (some (.Lookup key)) st =
      match DHT.lookup st key with
      | some found_value =>
          ⟨.ok (), st,
           [.payload (encodeMessage (.Store key found_value)), .delimiter]⟩
      | none => ⟨.ok (), st, [.payload (encodeMessage .Ack), .delimiter]⟩ := rfl

/-- Folding inserts over a store that misses `k` still misses `k` when no
inserted pair has key `k`. -/
theorem foldl_insert_lookup_none (ops : List (String × String)) (st : StoreMap)
    (k : String) (h : k ∉ ops.map Prod.fst) (h0 : st k = none) :
    (ops.foldl (fun acc kv => DHT.insert acc kv.1 kv.2) st) k = none := by
  induction ops generalizing st with
  | nil => exact h0
  | cons kv rest ih =>
      simp only [List.map_cons, List.mem_cons, not_or] at h
      refine ih (DHT.insert st kv.1 kv.2) (by exact h.2) ?_
      show (if k = kv.1 then some kv.2 else st k) = none
      rw [if_neg h.1]
      exact h0

/-- Applying `chunksOf` to a nonempty list with positive chunk size is nonempty. -/
theorem chunksOf_ne_nil (n : Nat) (xs : List Byte) (h : ¬(n = 0 ∨ xs = [])) :
    chunksOf n xs ≠ [] := by
  rw [chunksOf, dif_neg h]
  exact List.cons_ne_nil _ _

/-- The chunks concatenate back to the original list. -/
theorem chunksOf_flatten (n : Nat) (xs : List Byte) :
    0 < n → (chunksOf n xs).flatten = xs := by
  induction xs using chunksOf.induct n with
  | case1 xs h =>
      intro hn
      rcases h with h | h
      · omega
      · subst h
        simp [chunksOf]
  | case2 xs h ih =>
      intro hn
      rw [chunksOf, dif_neg h]
      simp only [List.flatten_cons, ih hn, List.take_append_drop]

/-- Every chunk has length at most the chunk size. -/
theorem chunksOf_length_le (n : Nat) (xs : List Byte) :
    0 < n → ∀ c ∈ chunksOf n xs, c.length ≤ n := by
  induction xs using chunksOf.induct n with
  | case1 xs h =>
      intro _ c hc
      rw [chunksOf, dif_pos h] at hc
      exact absurd hc (List.not_mem_nil c)
  | case2 xs h ih =>
      intro hn c hc
      rw [chunksOf, dif_neg h] at hc
      rcases List.mem_cons.mp hc with rfl | hc2
      · exact List.length_take_le n xs
      · exact ih hn c hc2

/-- Every chunk except the last has length exactly the chunk size. -/
theorem chunksOf_dropLast_length (n : Nat) (xs : List Byte) :
    0 < n → ∀ c ∈ (chunksOf n xs).dropLast, c.length = n := by
  induction xs using chunksOf.induct n with
  | case1 xs h =>
      intro _ c hc
      rw [chunksOf, dif_pos h] at hc
      exact absurd hc (List.not_mem_nil c)
  | case2 xs h ih =>
      intro hn c hc
      rw [chunksOf, dif_neg h] at hc
      by_cases hd : n = 0 ∨ xs.drop n = []
      · rw [chunksOf, dif_pos hd] at hc
        exact absurd hc (List.not_mem_nil c)
      · have htail := chunksOf_ne_nil n (xs.drop n) hd
        rw [List.dropLast_cons_of_ne_nil htail] at hc
        rcases List.mem_cons.mp hc with rfl | hc2
        · push_neg at hd
          have hlen : ¬(xs.length ≤ n) := fun hle =>
            hd.2 (List.drop_eq_nil_iff.mpr hle)
          rw [List.length_take n xs]
          omega
        · exact ih hn c hc2

/-- The listener loop distributes over trace concatenation. -/
theorem start_server_append (es1 es2 : List AcceptEvent) :
    start_server (es1 ++ es2) = start_server es1 ++ start_server es2 := by
  induction es1 with
  | nil => rfl
  | cons e rest ih => cases e <;> simp [start_server, ih]

/-- Every connection accepted in a trace is handled. -/
theorem mem_start_server (es : List AcceptEvent) (socket : Nat)
    (h : AcceptEvent.conn socket ∈ es) : socket ∈ start_server es := by
  induction es with
  | nil => cases h
  | cons e rest ih =>
      rcases List.mem_cons.mp h with he | hm
      · rw [← he]
        exact List.mem_cons_self socket (start_server rest)
      · cases e with
        | conn s => exact List.mem_cons_of_mem s (ih hm)
        | err => exact ih hm

/-! ### Claims -/

/-- C1: a decoded `Store{key,value}` request makes the handler insert
`(key, value)` into the shared store and write exactly one `Ack` reply
followed by the newline delimiter; the handler returns success. -/
theorem store_request_inserts_and_acks (line : Option Json) (st : StoreMap)
    (key value : String)
    (h : line.bind decodeMessage = some (.Store key value)) :
    handle_connection line st =
      ⟨.ok (), DHT.insert st key value,
       [.payload (encodeMessage .Ack), .delimiter]⟩ := by
  unfold handle_connection
  rw [h]
  rfl

/-- Witness for C1 at a concrete request and the empty store. -/
theorem store_request_inserts_and_acks_witness :
    handle_connection (some (encodeMessage (Message.Store "alpha" "1"))) DHT.new =
      ⟨.ok (), DHT.insert DHT.new "alpha" "1",
       [.payload (encodeMessage .Ack), .delimiter]⟩ :=
  store_request_inserts_and_acks _ DHT.new "alpha" "1" (by decide)

/-- C2: a decoded `Lookup{key}` request makes the handler reply with a
`Store{key, v}` echo when the store holds `v` at `key`, and with `Ack`
when the store holds nothing at `key`; in both cases exactly one payload
followed by one delimiter is written and the store is unchanged. -/
theorem lookup_request_echo_or_ack (line : Option Json) (st : StoreMap)
    (key : String) (h : line.bind decodeMessage = some (.Lookup key)) :
    (∀ v, DHT.lookup st key = some v →
      handle_connection line st =
        ⟨.ok (), st, [.payload (encodeMessage (.Store key v)), .delimiter]⟩) ∧
    (DHT.lookup st key = none →
      handle_connection line st =
        ⟨.ok (), st, [.payload (encodeMessage .Ack), .delimiter]⟩) := by
  constructor
  · intro v hv
    unfold handle_connection
    rw [h, dispatchDecoded_lookup_eq, hv]
  · intro hv
    unfold handle_connection
    rw [h, dispatchDecoded_lookup_eq, hv]

/-- Witness for C2 at a concrete request against a store holding the key. -/
theorem lookup_request_echo_or_ack_witness :
    handle_connection (some (encodeMessage (Message.Lookup "alpha")))
        (DHT.insert DHT.new "alpha" "1") =
      ⟨.ok (), DHT.insert DHT.new "alpha" "1",
       [.payload (encodeMessage (.Store "alpha" "1")), .delimiter]⟩ :=
  (lookup_request_echo_or_ack _ _ "alpha" (by decide)).1 "1" (by decide)

/-- C3: serializing any `Message` value to its JSON wire encoding and
deserializing it yields the original value, field for field, including
an arbitrary `FileData.data` byte payload. -/
theorem message_roundtrip (m : Message) :
    decodeMessage (encodeMessage m) = some m :=
  decode_encode m

/-- C4: inserting `(k, v)` and immediately looking up `k` returns `v`. -/
theorem insert_then_lookup (st : StoreMap) (k v : String) :
    DHT.lookup (DHT.insert st k v) k = some v := by
  show (if k = k then some v else st k) = some v
  rw [if_pos rfl]

/-- C5: a key never inserted since the store was created empty looks up
to `none`, and the handler answers a `Lookup` for it with `Ack`. -/
theorem never_stored_lookup_absent (ops : List (String × String)) (k : String)
    (h : k ∉ ops.map Prod.fst) :
    DHT.lookup (applyInserts ops) k = none ∧
    handle_connection (some (encodeMessage (.Lookup k))) (applyInserts ops) =
      ⟨.ok (), applyInserts ops,
       [.payload (encodeMessage .Ack), .delimiter]⟩ := by
  have habs : DHT.lookup (applyInserts ops) k = none :=
    foldl_insert_lookup_none ops DHT.new k h rfl
  refine ⟨habs, ?_⟩
  have hdec : (some (encodeMessage (Message.Lookup k))).bind decodeMessage =
      some (Message.Lookup k) := by
    rw [Option.some_bind']
    exact decode_encode _
  unfold handle_connection
  rw [hdec, dispatchDecoded_lookup_eq, habs]

/-- Witness for C5: key "beta" after only "alpha" was ever inserted. -/
theorem never_stored_lookup_absent_witness :
    DHT.lookup (applyInserts [("alpha", "1")]) "beta" = none ∧
    handle_connection (some (encodeMessage (.Lookup "beta")))
        (applyInserts [("alpha", "1")]) =
      ⟨.ok (), applyInserts [("alpha", "1")],
       [.payload (encodeMessage .Ack), .delimiter]⟩ :=
  never_stored_lookup_absent [("alpha", "1")] "beta" (by decide)

/-- C6: when the line does not decode into a `Message`, the handler
returns the decode error to its caller, writes nothing, and leaves the
store exactly as it was. -/
theorem decode_failure_no_reply (line : Option Json) (st : StoreMap)
    (h : line.bind decodeMessage = none) :
    handle_connection line st = ⟨.error .decodeError, st, []⟩ := by
  unfold handle_connection
  rw [h]
  rfl

/-- Witness for C6 at a line that is valid JSON but no `Message`. -/
theorem decode_failure_no_reply_witness :
    handle_connection (some (Json.num 0)) DHT.new =
      ⟨.error .decodeError, DHT.new, []⟩ :=
  decode_failure_no_reply (some (Json.num 0)) DHT.new (by decide)

/-- C9: `insert k v` changes at most the entry of `k`: the lookup of any
other key is unchanged. -/
theorem insert_frame (st : StoreMap) (k v k2 : String) (h : k2 ≠ k) :
    DHT.lookup (DHT.insert st k v) k2 = DHT.lookup st k2 := by
  show (if k2 = k then some v else st k2) = st k2
  rw [if_neg h]

/-- Witness for C9 at concrete distinct keys. -/
theorem insert_frame_witness :
    DHT.lookup (DHT.insert DHT.new "alpha" "1") "beta" =
      DHT.lookup DHT.new "beta" :=
  insert_frame DHT.new "alpha" "1" "beta" (by decide)

/-- C8: a failed accept never ends the listener loop: the trace around a
failure is served exactly as if the failure had not occurred, and every
connection accepted after the failure is still handled. -/
theorem accept_failure_loop_continues (es1 es2 : List AcceptEvent) :
    start_server (es1 ++ AcceptEvent.err :: es2) =
      start_server es1 ++ start_server es2 ∧
    ∀ socket, AcceptEvent.conn socket ∈ es2 →
      socket ∈ start_server (es1 ++ AcceptEvent.err :: es2) := by
  have h1 : start_server (es1 ++ AcceptEvent.err :: es2) =
      start_server es1 ++ start_server es2 := by
    rw [start_server_append]
    rfl
  refine ⟨h1, fun socket hs => ?_⟩
  rw [h1]
  exact List.mem_append_right _ (mem_start_server es2 socket hs)

/-- Witness for C8: the connection accepted after a failed accept is
still handled. -/
theorem accept_failure_loop_continues_witness :
    (start_server ([AcceptEvent.conn 1] ++ AcceptEvent.err :: [AcceptEvent.conn 2]) =
      start_server [AcceptEvent.conn 1] ++ start_server [AcceptEvent.conn 2]) ∧
    2 ∈ start_server ([AcceptEvent.conn 1] ++ AcceptEvent.err :: [AcceptEvent.conn 2]) :=
  ⟨(accept_failure_loop_continues [AcceptEvent.conn 1] [AcceptEvent.conn 2]).1,
   (accept_failure_loop_continues [AcceptEvent.conn 1] [AcceptEvent.conn 2]).2 2
     (by decide)⟩

/-- C10: `split_file` with chunk size 0 panics on a non-empty file, and
with a positive chunk size returns chunks whose concatenation is the
file's bytes, each of the chunk size except a possibly shorter last. -/
theorem split_file_spec (buffer : List Byte) (n : Nat) :
    (buffer ≠ [] → split_file buffer 0 = none) ∧
    (0 < n → ∃ cs, split_file buffer n = some cs ∧
      cs.flatten = buffer ∧
      (∀ c ∈ cs.dropLast, c.length = n) ∧
      ∀ c ∈ cs, c.length ≤ n) := by
  constructor
  · intro _
    rfl
  · intro hn
    refine ⟨chunksOf n buffer, ?_, chunksOf_flatten n buffer hn,
      chunksOf_dropLast_length n buffer hn, chunksOf_length_le n buffer hn⟩
    unfold split_file
    rw [if_neg (Nat.pos_iff_ne_zero.mp hn)]

/-- Witness for C10 at a three-byte buffer and chunk size two. -/
theorem split_file_spec_witness :
    split_file [0, 1, 2] 0 = none ∧
    (∃ cs, split_file [0, 1, 2] 2 = some cs ∧
      cs.flatten = [0, 1, 2] ∧
      (∀ c ∈ cs.dropLast, c.length = 2) ∧
      ∀ c ∈ cs, c.length ≤ 2) :=
  ⟨(split_file_spec [0, 1, 2] 2).1 (by decide),
   (split_file_spec [0, 1, 2] 2).2 (by decide)⟩

/-- C7 as stated is false: `join_network` reports a message-write failure
but still attempts the later read and decode stages (it has no early
return after connect, unlike `store_key_value` and `lookup_key`).
Concretely, with a successful connect, a failed message write and
everything else succeeding, the run reports `writeMsg` as an error yet
attempts `readResp` after it. -/
theorem client_failure_terminal_counterexample :
    ¬(terminatesOnFailure join_network ∧
      terminatesOnFailure store_key_value ∧
      terminatesOnFailure lookup_key) := by
  intro hcl
  have h := hcl.1 ⟨true, false, true, true, some (encodeMessage Message.Ack)⟩
    Stage.writeMsg Stage.readResp (by decide) (by decide)
  exact h (by decide)

/-- C7 amended: `store_key_value` and `lookup_key` report every stage
failure as terminal — no later stage of the same call is attempted;
`join_network` ends the call on a connect failure, but after a successful
connect it attempts every remaining stage, reporting each failure without
stopping; and no call ever retries a stage. -/
theorem client_failure_policy :
    terminatesOnFailure store_key_value ∧
    terminatesOnFailure lookup_key ∧
    (∀ env : ClientEnv, env.connectOk = false →
      join_network env = ⟨[Stage.connect], [Stage.connect]⟩) ∧
    (∀ env : ClientEnv, env.connectOk = true →
      (join_network env).attempted =
        [Stage.connect, Stage.writeMsg, Stage.writeNl, Stage.readResp,
         Stage.decodeResp]) ∧
    noRetry join_network ∧ noRetry store_key_value ∧ noRetry lookup_key := by
  refine ⟨?_, ?_, ?_, ?_, ?_, ?_, ?_⟩
  · intro env
    rcases env with ⟨c, w1, w2, r, resp⟩
    cases c
    · simp only [store_key_value, Bool.not_false, if_true]
      decide
    · cases w1
      · simp only [store_key_value, Bool.not_true, Bool.not_false, if_true,
          Bool.false_eq_true, if_false]
        decide
      · cases w2
        · simp only [store_key_value, Bool.not_true, Bool.not_false, if_true,
            Bool.false_eq_true, if_false]
          decide
        · cases r
          · simp only [store_key_value, Bool.not_true, Bool.not_false, if_true,
              Bool.false_eq_true, if_false]
            decide
          · rcases hd : (resp.bind decodeMessage).isSome
            · simp only [store_key_value, Bool.not_true, Bool.false_eq_true,
                if_false, hd]
              decide
            · simp only [store_key_value, Bool.not_true, Bool.false_eq_true,
                if_false, hd, if_true]
              decide
  · intro env
    rcases env with ⟨c, w1, w2, r, resp⟩
    cases c
    · simp only [lookup_key, Bool.not_false, if_true]
      decide
    · cases w1
      · simp only [lookup_key, Bool.not_true, Bool.not_false, if_true,
          Bool.false_eq_true, if_false]
        decide
      · cases w2
        · simp only [lookup_key, Bool.not_true, Bool.not_false, if_true,
            Bool.false_eq_true, if_false]
          decide
        · cases r
          · simp only [lookup_key, Bool.not_true, Bool.not_false, if_true,
              Bool.false_eq_true, if_false]
            decide
          · rcases hd : (resp.bind decodeMessage).isSome
            · simp only [lookup_key, Bool.not_true, Bool.false_eq_true,
                if_false, hd]
              decide
            · simp only [lookup_key, Bool.not_true, Bool.false_eq_true,
                if_false, hd, if_true]
              decide
  · intro env h
    rcases env with ⟨c, w1, w2, r, resp⟩
    cases h
    rfl
  · intro env h
    rcases env with ⟨c, w1, w2, r, resp⟩
    cases h
    rfl
  · intro env
    rcases env with ⟨c, w1, w2, r, resp⟩
    cases c
    · exact (by decide : ([Stage.connect] : List Stage).Nodup)
    · exact (by decide :
        ([Stage.connect, Stage.writeMsg, Stage.writeNl, Stage.readResp,
          Stage.decodeResp] : List Stage).Nodup)
  · intro env
    rcases env with ⟨c, w1, w2, r, resp⟩
    cases c <;> cases w1 <;> cases w2 <;> cases r <;>
      first
        | decide
        | (rcases hd : (resp.bind decodeMessage).isSome <;>
            simp only [store_key_value, Bool.not_true, Bool.false_eq_true,
              if_false, hd, if_true] <;> decide)
  · intro env
    rcases env with ⟨c, w1, w2, r, resp⟩
    cases c <;> cases w1 <;> cases w2 <;> cases r <;>
      first
        | decide
        | (rcases hd : (resp.bind decodeMessage).isSome <;>
            simp only [lookup_key, Bool.not_true, Bool.false_eq_true,
              if_false, hd, if_true] <;> decide)

/-- Witness for the amended C7: a failed message write in
`store_key_value` stops the call before the newline write, and a failed
connect stops `join_network` at once. -/
theorem client_failure_policy_witness :
    Stage.writeNl ∉ (store_key_value ⟨true, false, true, true, none⟩).attempted ∧
    join_network ⟨false, true, true, true, none⟩ =
      ⟨[Stage.connect], [Stage.connect]⟩ :=
  ⟨client_failure_policy.1 ⟨true, false, true, true, none⟩
      Stage.writeMsg Stage.writeNl (by decide) (by decide),
   client_failure_policy.2.2.1 ⟨false, true, true, true, none⟩ rfl⟩

end RustDHTShare
